import Mathlib

/-!
Shallow embedding of the device-provisioning and registration logic of the
eve-ng FTD automation repository.

The embedded code comes from two files:

* src/src/processing_ftd.py — node lifecycle (create_nodes, start_nodes,
  telnet_conn, threading_process, run_threads);
* src/src/processing_fmc.py — registration and convergence (fmc_register:
  visibility wait, health-convergence loop, HA-pair convergence, security
  zones, configure_interface).

Each Python polling loop is embedded as a fuel-indexed recursion whose step
mirrors the loop body exactly (same tests, in the same order); environments
(HTTP responses, screen captures, poll observations) are passed as functions
from the round number to the observation made in that round.
-/

namespace EveFtd

/-! ### Node creation — processing_ftd.py, create_nodes (lines 162-227) -/

/-- Outcome of a single node-creation attempt, as seen by the body of the
retry loop in create_nodes: a 201 response whose body yields a device id, a
non-201 response (which the code turns into a raised ValueError), or any
other exception during the attempt. -/
inductive AttemptOutcome where
  | created (deviceId : Nat)
  | httpError (code : Nat)
  | exn
deriving DecidableEq

/-- How create_nodes terminates: a returned device id (line 213), an
exception re-raised after the last attempt (line 224), or the trailing
return None after the loop (line 227). -/
inductive CreateResult where
  | ok (deviceId : Nat)
  | raised
  | fellThrough
deriving DecidableEq

/-- Retry bound for node creation (processing_ftd.py line 162). -/
def max_retries : Nat := 3

/-- Backoff between creation attempts in seconds (processing_ftd.py line 219). -/
def create_backoff : Nat := 5

/-- The retry loop of create_nodes: for attempt in range(max_retries), a
successful attempt returns the device id; a failed attempt sleeps and
continues while attempt < max_retries - 1 and re-raises on the last
attempt. The fuel argument counts the loop iterations still to run, so
fuel 0 is the fall-through to the trailing return None. -/
def createNodesAux (env : Nat → AttemptOutcome) (attempt : Nat) : Nat → CreateResult
  | 0 => CreateResult.fellThrough
  | rem + 1 =>
    match env attempt with
    | AttemptOutcome.created id => CreateResult.ok id
    | _ =>
      if attempt < max_retries - 1 then createNodesAux env (attempt + 1) rem
      else CreateResult.raised

/-- create_nodes (processing_ftd.py lines 162-227): run the retry loop from
attempt 0 with its range(max_retries) iteration count. -/
def create_nodes (env : Nat → AttemptOutcome) : CreateResult :=
  createNodesAux env 0 max_retries

/-! ### Node start — processing_ftd.py, start_nodes (lines 229-316) -/

/-- One observation of the node-status poll: the status GET itself failing
(non-200), an exception while parsing the body, or a parsed
data.status field (None when the key is absent; 0 stopped, 1 starting,
2 running). -/
inductive PollObs where
  | httpFail
  | parseError
  | status (s : Option Nat)
deriving DecidableEq

/-- Environment of one start_nodes call: whether the initial fire call
returns 200, and the observation made by each status poll. The result of a
re-issued start call is only logged by the code (lines 297-300) and does not
influence control flow, so it is not part of the environment. -/
structure StartEnv where
  fireOk : Bool
  poll : Nat → PollObs

/-- node_status == 2 test of line 291. -/
def isRun (o : PollObs) : Bool := decide (o = PollObs.status (some 2))

/-- node_status == 0 test of line 294. -/
def isStopped (o : PollObs) : Bool := decide (o = PollObs.status (some 0))

/-- Poll bound of start_nodes (processing_ftd.py line 282). -/
def max_start_retries : Nat := 10

/-- Delay between status polls in seconds (processing_ftd.py line 283). -/
def start_retry_delay : Nat := 5

/-- The polling loop of start_nodes (lines 284-307): running returns True;
stopped re-issues the start call (recorded by attempt index) and keeps
polling; every other observation (starting, unexpected status, parse
error, failed status GET) just waits and retries. -/
def startPollAux (env : StartEnv) (attempt : Nat) : Nat → Bool × List Nat
  | 0 => (false, [])
  | rem + 1 =>
    if isRun (env.poll attempt) then (true, [])
    else if isStopped (env.poll attempt) then
      ((startPollAux env (attempt + 1) rem).1, attempt :: (startPollAux env (attempt + 1) rem).2)
    else startPollAux env (attempt + 1) rem

/-- What start_nodes produces: its boolean return value, the poll attempts
at which the start call was re-issued, and whether a red failure line was
pushed to starnode_queue (lines 311 and 314). -/
structure StartResult where
  running : Bool
  reissues : List Nat
  failReported : Bool
deriving DecidableEq

/-- start_nodes (processing_ftd.py lines 229-316): fire the start call; on
200 poll up to max_start_retries times; on a failed fire call report and
return False. Both False exits push a red failure message. -/
def start_nodes (env : StartEnv) : StartResult :=
  if env.fireOk then
    let r := startPollAux env 0 max_start_retries
    ⟨r.1, r.2, !r.1⟩
  else ⟨false, [], true⟩

/-! ### Per-device worker — processing_ftd.py, threading_process (lines 753-840) -/

/-- Environment of one worker thread: the creation attempts, the start
phase, and whether get_node_port succeeds (its JSON accesses can raise,
which the except clause of the worker catches). telnet_conn swallows its own
exceptions internally (lines 583-586), so it never raises to the worker. -/
structure ThreadEnv where
  createEnv : Nat → AttemptOutcome
  startEnv : StartEnv
  portOk : Bool

/-- Observable behaviour of one threading_process call: the created device
id (if any), which phases were attempted, what start_nodes returned and
reported, and whether the except clause of the worker pushed an error to
closeconnection_queue (lines 839-840). -/
structure WorkerResult where
  created : Option Nat
  startAttempted : Bool
  startRunning : Bool
  startFailReported : Bool
  consoleAttempted : Bool
  workerErrorReported : Bool
deriving DecidableEq

/-- The part of threading_process after create_nodes has returned (lines
822-837): start_nodes is called and its boolean result is discarded (line
823), then get_node_port, then telnet_conn. A get_node_port failure is
caught by the except clause of the worker, so the console step is reached
exactly when the port lookup succeeds. -/
def workerAfterCreate (env : ThreadEnv) (created : Option Nat) : WorkerResult :=
  let s := start_nodes env.startEnv
  if env.portOk then ⟨created, true, s.running, s.failReported, true, false⟩
  else ⟨created, true, s.running, s.failReported, false, true⟩

/-- threading_process (lines 753-840): create, then (whatever start_nodes
returned) port lookup and console configuration; a create_nodes exception is
caught at lines 839-840 and reported, skipping every later phase. The
fellThrough branch mirrors the trailing return None of create_nodes, after
which the worker would continue with device_id = None. -/
def threading_process (env : ThreadEnv) : WorkerResult :=
  match create_nodes env.createEnv with
  | CreateResult.ok id => workerAfterCreate env (some id)
  | CreateResult.fellThrough => workerAfterCreate env none
  | CreateResult.raised => ⟨none, false, false, false, false, true⟩

/-- run_threads (lines 603-745): one worker per device; the coordinator
joins every thread and returns normally regardless of per-worker outcomes.
Each worker reads only its own environment. -/
def run_all (envs : List ThreadEnv) : List WorkerResult := envs.map threading_process

/-! ### Visibility wait — processing_fmc.py, fmc_register (lines 188-208) -/

/-- Ceiling of the visibility wait in seconds (processing_fmc.py line 189). -/
def fmc_max_wait : Nat := 600

/-- Poll interval of the visibility wait in seconds (line 191). -/
def fmc_poll_interval : Nat := 10

/-- Interval of the health-convergence loop in seconds (line 192). -/
def fmc_health_interval : Nat := 30

/-- Soft warning threshold of the health-convergence loop (line 236). -/
def fmc_health_warn : Nat := 1800

/-- missing_devices = set(device_names) - set(found_device_names)
(line 198), as the sublist of submitted names absent from the fetched
device list. -/
def missingAt (found names : List String) : List String :=
  names.filter (fun n => !(found.contains n))

/-- How the visibility loop exits: all names present (line 201), timeout
with the still-missing names reported (lines 202-205), or fuel exhausted
(proved unreachable below: the loop always exits within vis_fuel rounds). -/
inductive VisExit where
  | converged
  | timeout (missing : List String)
  | fuelOut
deriving DecidableEq

/-- The while True visibility loop (lines 193-208): fetch the device list,
break when no submitted name is missing, abort when waited_rec > max_wait,
otherwise sleep poll_interval and add it to waited_rec. -/
def visLoopAux (env : Nat → List String) (names : List String) (waited round : Nat) :
    Nat → VisExit
  | 0 => VisExit.fuelOut
  | fuel + 1 =>
    if missingAt (env round) names = [] then VisExit.converged
    else if waited > fmc_max_wait then VisExit.timeout (missingAt (env round) names)
    else visLoopAux env names (waited + fmc_poll_interval) (round + 1) fuel

/-- 62 rounds suffice: waited_rec reaches 610 > 600 at round 61. -/
def vis_fuel : Nat := 62

/-- The visibility wait as run by fmc_register: waited_rec starts at 0. -/
def visibility_wait (env : Nat → List String) (names : List String) : VisExit :=
  visLoopAux env names 0 0 vis_fuel

/-! ### Health convergence — processing_fmc.py, fmc_register (lines 209-244) -/

/-- One device observation in a health round: the listed name together with
the healthStatus (lowered) and deploymentStatus of the detail endpoint
(uppered), lines 213-219. -/
structure DevObs where
  name : String
  health : String
  deploy : String
deriving DecidableEq

/-- healthy_states of line 221. -/
def healthy_states : List String := ["green", "yellow", "recovered"]

/-- The readiness test of line 222: listed name is a submitted name, health
in healthy_states, deployment DEPLOYED, and not already recorded. -/
def devReady (names ready : List String) (d : DevObs) : Bool :=
  names.contains d.name && healthy_states.contains d.health &&
    (d.deploy == "DEPLOYED") && !(ready.contains d.name)

/-- The per-round for-loop over the fetched device list (lines 213-228):
ready devices are appended to ready_devices keyed by name; the
red/NOT_DEPLOYED case only logs and continues. -/
def roundReady (names : List String) (ready : List String) : List DevObs → List String
  | [] => ready
  | d :: ds => roundReady names (if devReady names ready d then ready ++ [d.name] else ready) ds

/-- How the health loop exits: all submitted devices ready (line 233), the
disappeared-devices break (lines 229-232), or still polling when the fuel
runs out (the loop itself has no hard ceiling: line 236 only logs a
warning). -/
inductive HealthExit where
  | allReady (ready : List String)
  | disappeared (missing : List String)
  | running (ready : List String)
deriving DecidableEq

/-- The while True health loop (lines 209-240). missing_devices is the
variable of that name as the loop body reads it: it is never reassigned
inside this loop, so it keeps the value left over from the visibility
loop. -/
def healthLoopAux (env : Nat → List DevObs) (names missing_devices : List String)
    (ready : List String) (round : Nat) : Nat → HealthExit
  | 0 => HealthExit.running ready
  | fuel + 1 =>
    if missing_devices ≠ [] then HealthExit.disappeared missing_devices
    else if (roundReady names ready (env round)).length = names.length then
      HealthExit.allReady (roundReady names ready (env round))
    else healthLoopAux env names missing_devices (roundReady names ready (env round)) (round + 1) fuel

/-- Result of the registration-convergence part of fmc_register. -/
inductive RegResult where
  | visTimeout (missing : List String)
  | health (e : HealthExit)
deriving DecidableEq

/-- Composition of the two loops as fmc_register runs them (lines 188-244):
the health loop starts only after the visibility loop broke on
missing_devices being empty, so it inherits missing_devices = []. The
fuelOut branch is unreachable (visibility_wait never returns it) and is
mapped to an abort. -/
def register_converge (visEnv : Nat → List String) (healthEnv : Nat → List DevObs)
    (names : List String) (fuel : Nat) : RegResult :=
  match visibility_wait visEnv names with
  | VisExit.timeout m => RegResult.visTimeout m
  | VisExit.fuelOut => RegResult.visTimeout []
  | VisExit.converged => RegResult.health (healthLoopAux healthEnv names [] [] 0 fuel)

/-! ### HA-pair status convergence — processing_fmc.py (lines 297-319) -/

/-- Ceiling of the HA waits in seconds (line 279). -/
def max_ha_wait : Nat := 1800

/-- Interval of the HA polls in seconds (line 126). -/
def ha_poll_interval : Nat := 10

/-- One poll of the HA-pair status endpoint: primaryStatus.currentStatus
and secondaryStatus.currentStatus, lowered (lines 303-304). -/
structure HaObs where
  primary : String
  secondary : String
deriving DecidableEq

/-- How the HA status loop exits: success break (line 310), failed break
(line 313), ceiling-warning break (line 316), or still polling when fuel
runs out. -/
inductive HaExit where
  | success
  | failed
  | ceilingWarn
  | running
deriving DecidableEq

/-- The exit tests of one HA status loop iteration, in the order the body
performs them (lines 306-316); none means the body sleeps and loops. -/
def haClassify (o : HaObs) (wait : Nat) : Option HaExit :=
  if o.primary = "active" ∧ o.secondary = "standby" then some HaExit.success
  else if o.primary = "failed" ∨ o.secondary = "failed" then some HaExit.failed
  else if wait > max_ha_wait then some HaExit.ceilingWarn
  else none

/-- The while True HA status loop (lines 298-319). wait_ha is whatever
accumulated during the preceding pair-visibility poll; every exit is a
plain break — the ceiling branch returns normally without raising. -/
def haStatusLoop (env : Nat → HaObs) (wait round : Nat) : Nat → HaExit
  | 0 => HaExit.running
  | fuel + 1 =>
    match haClassify (env round) wait with
    | some e => e
    | none => haStatusLoop env (wait + ha_poll_interval) (round + 1) fuel

/-! ### Security zones and interfaces — processing_fmc.py (lines 326-423) -/

/-- One zone-creation response: the returned id and the HTTP status. -/
structure ZoneResp where
  id : Nat
  status : Nat
deriving DecidableEq

/-- raise_for_status succeeds exactly on non-error statuses. -/
def httpOk (s : Nat) : Bool := s < 400

/-- The zone-creation loop (lines 327-333): each zone is POSTed in order,
raise_for_status aborts the whole phase on an error status, and otherwise
the returned id is appended to zones_id_list. -/
def createZones : List ZoneResp → List Nat
  | [] => []
  | r :: rs => if httpOk r.status then r.id :: createZones rs else []

/-- One entry of fmc_int_settings: the external interface configuration
consumed by configure_interface (lines 351-384). -/
structure IntConfig where
  zone_index : Nat
  ifname : String
  ip_address : String
  netmask : String
deriving DecidableEq

/-- The fields configure_interface writes into the fetched interface object
before the PUT (lines 372-384): securityZone from
zones_id_list[zone_index], ifname, enabled, static IPv4. -/
structure PutPayload where
  securityZoneId : Nat
  securityZoneType : String
  ifname : String
  enabled : Bool
  ipv4Address : String
  ipv4Netmask : String
deriving DecidableEq

/-- configure_interface (lines 351-395): build the PUT payload; the
zones_id_list[zone_index] subscript raises IndexError when out of range,
modelled as none. -/
def configure_interface (config : IntConfig) (zones_id_list : List Nat) : Option PutPayload :=
  match zones_id_list.get? config.zone_index with
  | some zid => some ⟨zid, "SecurityZone", config.ifname, true, config.ip_address, config.netmask⟩
  | none => none

/-! ### Console sequencer — processing_ftd.py, telnet_conn (lines 367-596) -/

/-- One interaction block of the telnet_conn sequence, in source order:
guard is the set of lowercase substrings a processed screen capture must
contain before the keystrokes of the block are sent (a while loop polling
capture_screen_text every 5 seconds), or none when the block sends its
keystrokes with no screen check at all. -/
structure SeqStep where
  guard : Option (List String)
  sends : List String
deriving DecidableEq

/-- The interaction blocks of telnet_conn in program order (lines 464-569):
login, password, EULA display, EULA agreement, new password (entered
twice), password-changed wait, IPv4 prompt, the IPv6 decline (line 531,
sent with no capture), the free-form command application (lines 534-541,
no capture), local management, firewall mode, manager registration. -/
def telnetSteps : List SeqStep := [
  ⟨some ["firepower login:"], ["admin"]⟩,
  ⟨some ["password"], ["Admin123"]⟩,
  ⟨some ["press <enter> to display the eula:"], ["<enter>"]⟩,
  ⟨some ["yes", "agree to the eula"], ["YES"]⟩,
  ⟨some ["enter new password:"], ["<new-password>", "<new-password>"]⟩,
  ⟨some ["password successfully changed"], []⟩,
  ⟨some ["do you want to configure ipv4?"], ["y"]⟩,
  ⟨none, ["n"]⟩,
  ⟨none, ["<device-commands>"]⟩,
  ⟨some ["manage the device locally?"], ["no"]⟩,
  ⟨some ["configure firewall mode"], ["routed"]⟩,
  ⟨some [">"], ["configure manager add 192.168.0.201 cisco123"]⟩]

/-- Whether a step of the sequence body raises an exception. -/
inductive StepResult where
  | ok
  | raise
deriving DecidableEq

/-- Index of the first step that raises among the next rem steps, if any. -/
def firstFailureAux (env : Nat → StepResult) (i : Nat) : Nat → Option Nat
  | 0 => none
  | rem + 1 =>
    match env i with
    | StepResult.raise => some i
    | StepResult.ok => firstFailureAux env (i + 1) rem

/-- Steps of the telnet_conn body: the VNC connect plus the interaction
blocks. -/
def numSteps : Nat := telnetSteps.length + 1

/-- What telnet_conn does on the way out: whether client.disconnect was
attempted (line 573), whether the two screenshot artifacts were removed
(lines 581-582), whether the outer except reported an error (lines
583-586), and whether the telnet handle was closed in the outer finally
(lines 587-596; tn is set to None at line 432 and never reassigned, so the
close never runs). -/
structure TeardownOutcome where
  disconnectAttempted : Bool
  artifactsRemoved : Bool
  errorReported : Bool
  telnetClosed : Bool
deriving DecidableEq

/-- telnet_conn teardown behaviour (lines 433-596): the disconnect and the
artifact removal sit inside the try, after the last interaction block, so
they run only when every step completed; artifact removal is further gated
on node_type == "FTD Firewall" (line 578). When any step raises, control
jumps to the outer except (report) and the outer finally, whose body is
a no-op because tn is None. -/
def telnet_conn_run (env : Nat → StepResult) (node_type : String) : TeardownOutcome :=
  match firstFailureAux env 0 numSteps with
  | none => ⟨true, node_type == "FTD Firewall", false, false⟩
  | some _ => ⟨false, false, true, false⟩

/-! ### Concrete inputs used by counterexamples and witnesses -/

/-- A start phase whose fire call succeeds but whose node reports
starting (status 1) at every poll: the bound is exhausted. -/
def startEnvStall : StartEnv := ⟨true, fun _ => PollObs.status (some 1)⟩

/-- A worker whose node is created first try and whose start phase
stalls. -/
def threadEnvStall : ThreadEnv := ⟨fun _ => AttemptOutcome.created 4, startEnvStall, true⟩

/-- A worker whose three creation attempts all raise. -/
def threadEnvFail : ThreadEnv := ⟨fun _ => AttemptOutcome.exn, startEnvStall, true⟩

/-- A creation environment that succeeds immediately. -/
def createEnvOk : Nat → AttemptOutcome := fun _ => AttemptOutcome.created 5

/-- Two submitted device names. -/
def namesAB : List String := ["FTD-A", "FTD-B"]

/-- A device list in which both submitted names are always visible. -/
def visEnvAB : Nat → List String := fun _ => ["FTD-A", "FTD-B"]

/-- Health rounds in which FTD-B has disappeared from the device list and
FTD-A is ready. -/
def healthEnvDrop : Nat → List DevObs := fun _ => [⟨"FTD-A", "green", "DEPLOYED"⟩]

/-- A console run whose first step already raises. -/
def envRaiseAll : Nat → StepResult := fun _ => StepResult.raise

/-- Three successful zone creations Z0, Z1, Z2 with ids 11, 22, 33. -/
def zoneRespsC6 : List ZoneResp := [⟨11, 201⟩, ⟨22, 201⟩, ⟨33, 201⟩]

/-- An interface configuration entry referencing zone_index 1. -/
def intConfigC6 : IntConfig := ⟨1, "inside", "10.0.0.1", "255.255.255.0"⟩

/-! ## Helper lemmas -/

theorem isRun_iff (o : PollObs) : isRun o = true ↔ o = PollObs.status (some 2) := by
  simp [isRun]

theorem isRun_false_iff (o : PollObs) : isRun o = false ↔ o ≠ PollObs.status (some 2) := by
  simp [isRun]

theorem isStopped_iff (o : PollObs) : isStopped o = true ↔ o = PollObs.status (some 0) := by
  simp [isStopped]

theorem createNodesAux_fail_step (env : Nat → AttemptOutcome) (a rem : Nat)
    (h : ∀ id, env a ≠ AttemptOutcome.created id) :
    createNodesAux env a (rem + 1) =
      if a < max_retries - 1 then createNodesAux env (a + 1) rem else CreateResult.raised := by
  cases henv : env a with
  | created id => exact absurd henv (h id)
  | httpError code => simp [createNodesAux, henv]
  | exn => simp [createNodesAux, henv]

theorem createNodesAux_spec (env : Nat → AttemptOutcome) :
    ∀ rem a, a + rem = max_retries → 0 < rem →
      (createNodesAux env a rem ≠ CreateResult.fellThrough ∧
       ∀ id, createNodesAux env a rem = CreateResult.ok id →
         ∃ k, k < rem ∧ env (a + k) = AttemptOutcome.created id) := by
  intro rem
  induction rem with
  | zero => intro a _ h0; exact absurd h0 (by omega)
  | succ rem ih =>
    intro a hsum _
    by_cases hc : ∃ id, env a = AttemptOutcome.created id
    · obtain ⟨id, hid⟩ := hc
      refine ⟨by simp [createNodesAux, hid], ?_⟩
      intro id2 h
      simp [createNodesAux, hid] at h
      exact ⟨0, Nat.succ_pos _, by rw [Nat.add_zero, hid, h]⟩
    · push_neg at hc
      rw [createNodesAux_fail_step env a rem hc]
      have h3 : max_retries = 3 := rfl
      rcases Nat.eq_zero_or_pos rem with hr | hr
      · subst hr
        rw [if_neg (by rw [h3] at hsum ⊢; omega)]
        exact ⟨by simp, by intro id h; cases h⟩
      · rw [if_pos (by rw [h3] at hsum ⊢; omega)]
        obtain ⟨h1, h2⟩ := ih (a + 1) (by omega) hr
        refine ⟨h1, ?_⟩
        intro id h
        obtain ⟨k, hk, hke⟩ := h2 id h
        exact ⟨k + 1, by omega, by rw [show a + (k + 1) = a + 1 + k by omega]; exact hke⟩

theorem start_nodes_failReported (env : StartEnv) :
    (start_nodes env).failReported = !(start_nodes env).running := by
  cases h : env.fireOk <;> simp [start_nodes, h]

theorem startPollAux_running_iff (env : StartEnv) :
    ∀ rem a, ((startPollAux env a rem).1 = true ↔
      ∃ k, k < rem ∧ isRun (env.poll (a + k)) = true) := by
  intro rem
  induction rem with
  | zero => intro a; simp [startPollAux]
  | succ rem ih =>
    intro a
    by_cases hr : isRun (env.poll a) = true
    · rw [show startPollAux env a (rem + 1) = (true, []) from by simp [startPollAux, hr]]
      constructor
      · intro _
        exact ⟨0, Nat.succ_pos _, by rw [Nat.add_zero]; exact hr⟩
      · intro _; rfl
    · have hstep : (startPollAux env a (rem + 1)).1 = (startPollAux env (a + 1) rem).1 := by
        by_cases hs : isStopped (env.poll a) = true
        · simp [startPollAux, hr, hs]
        · simp [startPollAux, hr, hs]
      rw [hstep, ih (a + 1)]
      constructor
      · rintro ⟨k, hk, hke⟩
        exact ⟨k + 1, by omega, by rw [show a + (k + 1) = a + 1 + k by omega]; exact hke⟩
      · rintro ⟨k, hk, hke⟩
        cases k with
        | zero => rw [Nat.add_zero] at hke; exact absurd hke hr
        | succ k =>
          exact ⟨k, by omega, by rw [show a + 1 + k = a + (k + 1) by omega]; exact hke⟩

theorem run_stop_incompatible (o : PollObs) : isRun o = true → isStopped o = true → False := by
  intro h1 h2
  simp [isRun] at h1
  simp [isStopped] at h2
  rw [h1] at h2
  simp at h2

theorem startPollAux_reissues_iff (env : StartEnv) :
    ∀ rem a i, (i ∈ (startPollAux env a rem).2 ↔
      (a ≤ i ∧ i < a + rem ∧ isStopped (env.poll i) = true ∧
       ∀ j, a ≤ j → j < i → isRun (env.poll j) = false)) := by
  intro rem
  induction rem with
  | zero =>
    intro a i
    simp only [startPollAux, List.not_mem_nil, false_iff]
    rintro ⟨h1, h2, -, -⟩
    omega
  | succ rem ih =>
    intro a i
    by_cases hr : isRun (env.poll a) = true
    · rw [show startPollAux env a (rem + 1) = (true, []) from by simp [startPollAux, hr]]
      simp only [List.not_mem_nil, false_iff]
      rintro ⟨h1, h2, h3, h4⟩
      rcases Nat.eq_or_lt_of_le h1 with he | hlt
      · exact run_stop_incompatible (env.poll i) (by rw [← he]; exact hr) h3
      · have hf := h4 a (le_refl a) hlt
        rw [hf] at hr
        simp at hr
    · rw [Bool.not_eq_true] at hr
      by_cases hs : isStopped (env.poll a) = true
      · have hx : (startPollAux env a (rem + 1)).2 =
            a :: (startPollAux env (a + 1) rem).2 := by
          simp [startPollAux, hr, hs]
        rw [hx, List.mem_cons, ih (a + 1) i]
        constructor
        · rintro (he | ⟨h1, h2, h3, h4⟩)
          · subst he
            exact ⟨le_refl i, by omega, hs, by intro j hj1 hj2; exact absurd hj2 (by omega)⟩
          · refine ⟨by omega, by omega, h3, ?_⟩
            intro j hj1 hj2
            rcases Nat.eq_or_lt_of_le hj1 with hje | hjl
            · rw [← hje]; exact hr
            · exact h4 j (by omega) hj2
        · rintro ⟨h1, h2, h3, h4⟩
          rcases Nat.eq_or_lt_of_le h1 with he | hlt
          · exact Or.inl he.symm
          · exact Or.inr ⟨by omega, by omega, h3, fun j hj1 hj2 => h4 j (by omega) hj2⟩
      · rw [Bool.not_eq_true] at hs
        have hx : startPollAux env a (rem + 1) = startPollAux env (a + 1) rem := by
          simp [startPollAux, hr, hs]
        rw [hx, ih (a + 1) i]
        constructor
        · rintro ⟨h1, h2, h3, h4⟩
          refine ⟨by omega, by omega, h3, ?_⟩
          intro j hj1 hj2
          rcases Nat.eq_or_lt_of_le hj1 with hje | hjl
          · rw [← hje]; exact hr
          · exact h4 j (by omega) hj2
        · rintro ⟨h1, h2, h3, h4⟩
          have hia : i ≠ a := by
            intro he
            rw [he] at h3
            rw [h3] at hs
            simp at hs
          exact ⟨by omega, by omega, h3, fun j hj1 hj2 => h4 j (by omega) hj2⟩

theorem startPollAux_reissues_nodup (env : StartEnv) :
    ∀ rem a, ((startPollAux env a rem).2).Nodup := by
  intro rem
  induction rem with
  | zero => intro a; simp [startPollAux]
  | succ rem ih =>
    intro a
    by_cases hr : isRun (env.poll a) = true
    · rw [show startPollAux env a (rem + 1) = (true, []) from by simp [startPollAux, hr]]
      simp
    · by_cases hs : isStopped (env.poll a) = true
      · have hx : (startPollAux env a (rem + 1)).2 =
            a :: (startPollAux env (a + 1) rem).2 := by
          simp [startPollAux, hr, hs]
        rw [hx]
        refine List.nodup_cons.mpr ⟨?_, ih (a + 1)⟩
        intro hmem
        obtain ⟨h1, -, -, -⟩ := (startPollAux_reissues_iff env rem (a + 1) a).mp hmem
        omega
      · have hx : startPollAux env a (rem + 1) = startPollAux env (a + 1) rem := by
          simp [startPollAux, hr, hs]
        rw [hx]
        exact ih (a + 1)

/-! ## Claim theorems -/

/-- C10: create_nodes either returns a device id parsed from a successful
(HTTP 201) creation response or raises after exhausting its retries; the
trailing return None after the retry loop (line 227) is unreachable, so a
caller never receives None as the created device identifier. -/
theorem c10_create_nodes_never_none :
    ∀ env : Nat → AttemptOutcome,
      create_nodes env ≠ CreateResult.fellThrough ∧
      (∀ id, create_nodes env = CreateResult.ok id →
        ∃ i, i < max_retries ∧ env i = AttemptOutcome.created id) := by
  intro env
  have h := createNodesAux_spec env max_retries 0 (by omega) (by decide)
  refine ⟨h.1, ?_⟩
  intro id hid
  obtain ⟨k, hk, hke⟩ := h.2 id hid
  rw [Nat.zero_add] at hke
  exact ⟨k, hk, hke⟩

/-- Witness for C10: a first-attempt success yields the parsed id and never
the fall-through. -/
theorem c10_witness :
    create_nodes createEnvOk ≠ CreateResult.fellThrough ∧
    ∃ i, i < max_retries ∧ createEnvOk i = AttemptOutcome.created 5 :=
  ⟨(c10_create_nodes_never_none createEnvOk).1,
   (c10_create_nodes_never_none createEnvOk).2 5 rfl⟩

/-- C4: node creation is attempted at most 3 times (max_retries = 3, with a
fixed backoff); after the third failed attempt the failure is raised to the
worker of the device, which catches it and reports it, skipping every later
phase of that device; the coordinator maps every worker environment to a
result (returns normally) and the result of each worker depends only on its own
environment, so sibling devices continue. -/
theorem c4_create_retry_fatal_per_device :
    max_retries = 3 ∧ create_backoff = 5 ∧
    (∀ env : ThreadEnv,
      (∀ i, i < max_retries → ∀ id, env.createEnv i ≠ AttemptOutcome.created id) →
        create_nodes env.createEnv = CreateResult.raised ∧
        threading_process env = ⟨none, false, false, false, false, true⟩) ∧
    (∀ envs : List ThreadEnv,
      (run_all envs).length = envs.length ∧
      ∀ i : Nat, (run_all envs)[i]? = (envs[i]?).map threading_process) := by
  refine ⟨rfl, rfl, ?_, ?_⟩
  · intro env hf
    have hras : create_nodes env.createEnv = CreateResult.raised := by
      rcases hcn : create_nodes env.createEnv with id | _ | _
      · have h := createNodesAux_spec env.createEnv max_retries 0 (by omega) (by decide)
        obtain ⟨k, hk, hke⟩ := h.2 id hcn
        rw [Nat.zero_add] at hke
        exact absurd hke (hf k hk id)
      · rfl
      · exact absurd hcn (createNodesAux_spec env.createEnv max_retries 0 (by omega) (by decide)).1
    exact ⟨hras, by simp [threading_process, hras]⟩
  · intro envs
    exact ⟨by simp [run_all], by intro i; simp [run_all]⟩

/-- Witness for C4: a worker whose three creation attempts all raise is
reported failed with no later phase attempted. -/
theorem c4_witness :
    create_nodes threadEnvFail.createEnv = CreateResult.raised ∧
    threading_process threadEnvFail = ⟨none, false, false, false, false, true⟩ :=
  c4_create_retry_fatal_per_device.2.2.1 threadEnvFail (by intro i hi id; simp [threadEnvFail])

/-- C2, counterexample: the claim says a device whose start phase exhausts
the polling bound is excluded from the console-configuration step; but
threading_process discards the boolean returned by start_nodes (line 823),
so a worker whose start phase returns False still attempts console
configuration. -/
theorem c2_counterexample :
    ¬ (∀ env : ThreadEnv,
        (start_nodes env.startEnv).running = false →
        (threading_process env).consoleAttempted = false) := by
  intro h
  have h2 := h threadEnvStall (by decide)
  exact absurd h2 (by decide)

/-- C2, amended: when the start phase exhausts its bound the failure is
reported on the start-phase message channel (the red line of line 311,
failReported = not running), but the device is not excluded: unless
create_nodes raised, the worker still attempts the console-configuration
step whenever the port lookup succeeds, regardless of the start result;
the result of each worker is a function of its own environment only, so sibling
devices are unaffected. -/
theorem c2_start_failure_not_excluded :
    ∀ env : ThreadEnv,
      create_nodes env.createEnv = CreateResult.raised ∨
      ((threading_process env).startAttempted = true ∧
       (threading_process env).startFailReported = !(start_nodes env.startEnv).running ∧
       (threading_process env).consoleAttempted = env.portOk) := by
  intro env
  rcases hcn : create_nodes env.createEnv with id | _ | _
  · right
    cases hp : env.portOk <;>
      simp [threading_process, hcn, workerAfterCreate, hp, start_nodes_failReported]
  · left; rfl
  · right
    cases hp : env.portOk <;>
      simp [threading_process, hcn, workerAfterCreate, hp, start_nodes_failReported]

/-- C3: starting a node is one fire call followed by a bounded poll (10
attempts, 5-second delay) of the tri-state run indicator; the function
returns True exactly when status 2 (running) is observed within the bound,
and each observation of status 0 (stopped) triggers exactly one re-issue of
the start call while polling continues (re-issues are recorded precisely at
the stopped observations reached before any running observation, without
duplicates). -/
theorem c3_start_nodes_poll_spec :
    max_start_retries = 10 ∧ start_retry_delay = 5 ∧
    ∀ env : StartEnv,
      ((start_nodes env).running = true ↔
        env.fireOk = true ∧
          ∃ i, i < max_start_retries ∧ env.poll i = PollObs.status (some 2)) ∧
      (∀ i, i ∈ (start_nodes env).reissues ↔
        env.fireOk = true ∧ i < max_start_retries ∧ env.poll i = PollObs.status (some 0) ∧
          ∀ j, j < i → env.poll j ≠ PollObs.status (some 2)) ∧
      ((start_nodes env).reissues).Nodup := by
  refine ⟨rfl, rfl, ?_⟩
  intro env
  cases hf : env.fireOk
  · refine ⟨?_, ?_, ?_⟩ <;> simp [start_nodes, hf]
  · refine ⟨?_, ?_, ?_⟩
    · rw [show (start_nodes env).running = (startPollAux env 0 max_start_retries).1 from by
        simp [start_nodes, hf]]
      rw [startPollAux_running_iff]
      constructor
      · rintro ⟨k, hk, hke⟩
        rw [Nat.zero_add, isRun_iff] at hke
        exact ⟨rfl, k, hk, hke⟩
      · rintro ⟨-, k, hk, hke⟩
        exact ⟨k, hk, by rw [Nat.zero_add, isRun_iff]; exact hke⟩
    · intro i
      rw [show (start_nodes env).reissues = (startPollAux env 0 max_start_retries).2 from by
        simp [start_nodes, hf]]
      rw [startPollAux_reissues_iff]
      constructor
      · rintro ⟨-, h2, h3, h4⟩
        refine ⟨rfl, h2, (isStopped_iff _).mp h3, ?_⟩
        intro j hj
        exact (isRun_false_iff _).mp (h4 j (Nat.zero_le j) hj)
      · rintro ⟨-, h2, h3, h4⟩
        refine ⟨Nat.zero_le i, h2, (isStopped_iff _).mpr h3, ?_⟩
        intro j _ hj
        exact (isRun_false_iff _).mpr (h4 j hj)
    · rw [show (start_nodes env).reissues = (startPollAux env 0 max_start_retries).2 from by
        simp [start_nodes, hf]]
      exact startPollAux_reissues_nodup env max_start_retries 0

theorem visLoopAux_converged_iff (env : Nat → List String) (names : List String) :
    ∀ fuel waited round,
      (visLoopAux env names waited round fuel = VisExit.converged ↔
        ∃ k, k < fuel ∧ missingAt (env (round + k)) names = [] ∧
          ∀ j, j < k → (missingAt (env (round + j)) names ≠ [] ∧ waited + 10 * j ≤ 600)) := by
  intro fuel
  induction fuel with
  | zero => intro waited round; simp [visLoopAux]
  | succ fuel ih =>
    intro waited round
    by_cases h0 : missingAt (env round) names = []
    · rw [show visLoopAux env names waited round (fuel + 1) = VisExit.converged from by
        simp [visLoopAux, h0]]
      constructor
      · intro _
        refine ⟨0, Nat.succ_pos _, by rw [Nat.add_zero]; exact h0, ?_⟩
        intro j hj
        exact absurd hj (by omega)
      · intro _; rfl
    · by_cases hw : waited > fmc_max_wait
      · rw [show visLoopAux env names waited round (fuel + 1) =
            VisExit.timeout (missingAt (env round) names) from by simp [visLoopAux, h0, hw]]
        have h600 : fmc_max_wait = 600 := rfl
        rw [h600] at hw
        constructor
        · intro h; simp at h
        · rintro ⟨k, hk, hke, hkj⟩
          cases k with
          | zero => rw [Nat.add_zero] at hke; exact absurd hke h0
          | succ k =>
            have h1 := (hkj 0 (by omega)).2
            rw [Nat.mul_zero, Nat.add_zero] at h1
            exact absurd h1 (by omega)
      · rw [show visLoopAux env names waited round (fuel + 1) =
            visLoopAux env names (waited + fmc_poll_interval) (round + 1) fuel from by
            simp [visLoopAux, h0, hw]]
        rw [ih (waited + fmc_poll_interval) (round + 1)]
        have h600 : fmc_max_wait = 600 := rfl
        have h10 : fmc_poll_interval = 10 := rfl
        rw [h600] at hw
        rw [h10]
        constructor
        · rintro ⟨k, hk, hke, hkj⟩
          refine ⟨k + 1, by omega,
            by rw [show round + (k + 1) = round + 1 + k by omega]; exact hke, ?_⟩
          intro j hj
          cases j with
          | zero =>
            refine ⟨by rw [Nat.add_zero]; exact h0, ?_⟩
            rw [Nat.mul_zero, Nat.add_zero]
            omega
          | succ j =>
            obtain ⟨hm, hwj⟩ := hkj j (by omega)
            exact ⟨by rw [show round + (j + 1) = round + 1 + j by omega]; exact hm, by omega⟩
        · rintro ⟨k, hk, hke, hkj⟩
          cases k with
          | zero => rw [Nat.add_zero] at hke; exact absurd hke h0
          | succ k =>
            refine ⟨k, by omega,
              by rw [show round + 1 + k = round + (k + 1) by omega]; exact hke, ?_⟩
            intro j hj
            obtain ⟨hm, hwj⟩ := hkj (j + 1) (by omega)
            exact ⟨by rw [show round + 1 + j = round + (j + 1) by omega]; exact hm, by omega⟩

theorem visLoopAux_timeout_iff (env : Nat → List String) (names : List String) :
    ∀ fuel waited round m,
      (visLoopAux env names waited round fuel = VisExit.timeout m ↔
        ∃ k, k < fuel ∧ missingAt (env (round + k)) names ≠ [] ∧ waited + 10 * k > 600 ∧
          m = missingAt (env (round + k)) names ∧
          ∀ j, j < k → (missingAt (env (round + j)) names ≠ [] ∧ waited + 10 * j ≤ 600)) := by
  intro fuel
  induction fuel with
  | zero => intro waited round m; simp [visLoopAux]
  | succ fuel ih =>
    intro waited round m
    by_cases h0 : missingAt (env round) names = []
    · rw [show visLoopAux env names waited round (fuel + 1) = VisExit.converged from by
        simp [visLoopAux, h0]]
      constructor
      · intro h; simp at h
      · rintro ⟨k, hk, hkm, hkw, hme, hkj⟩
        cases k with
        | zero => rw [Nat.add_zero] at hkm; exact absurd h0 hkm
        | succ k =>
          obtain ⟨hm0, -⟩ := hkj 0 (by omega)
          rw [Nat.add_zero] at hm0
          exact absurd h0 hm0
    · by_cases hw : waited > fmc_max_wait
      · rw [show visLoopAux env names waited round (fuel + 1) =
            VisExit.timeout (missingAt (env round) names) from by simp [visLoopAux, h0, hw]]
        have h600 : fmc_max_wait = 600 := rfl
        rw [h600] at hw
        constructor
        · intro h
          have hme : m = missingAt (env round) names := by
            injection h with h2
            exact h2.symm
          refine ⟨0, Nat.succ_pos _, by rw [Nat.add_zero]; exact h0, ?_,
            by rw [Nat.add_zero]; exact hme, ?_⟩
          · rw [Nat.mul_zero, Nat.add_zero]; omega
          · intro j hj; exact absurd hj (by omega)
        · rintro ⟨k, hk, hkm, hkw, hme, hkj⟩
          cases k with
          | zero =>
            rw [Nat.add_zero] at hme
            rw [hme]
          | succ k =>
            obtain ⟨-, hwj⟩ := hkj 0 (by omega)
            rw [Nat.mul_zero, Nat.add_zero] at hwj
            exact absurd hwj (by omega)
      · rw [show visLoopAux env names waited round (fuel + 1) =
            visLoopAux env names (waited + fmc_poll_interval) (round + 1) fuel from by
            simp [visLoopAux, h0, hw]]
        rw [ih (waited + fmc_poll_interval) (round + 1) m]
        have h600 : fmc_max_wait = 600 := rfl
        have h10 : fmc_poll_interval = 10 := rfl
        rw [h600] at hw
        rw [h10]
        constructor
        · rintro ⟨k, hk, hkm, hkw, hme, hkj⟩
          refine ⟨k + 1, by omega,
            by rw [show round + (k + 1) = round + 1 + k by omega]; exact hkm,
            by omega,
            by rw [show round + (k + 1) = round + 1 + k by omega]; exact hme, ?_⟩
          intro j hj
          cases j with
          | zero =>
            exact ⟨by rw [Nat.add_zero]; exact h0, by rw [Nat.mul_zero, Nat.add_zero]; omega⟩
          | succ j =>
            obtain ⟨hm2, hw2⟩ := hkj j (by omega)
            exact ⟨by rw [show round + (j + 1) = round + 1 + j by omega]; exact hm2, by omega⟩
        · rintro ⟨k, hk, hkm, hkw, hme, hkj⟩
          cases k with
          | zero =>
            rw [Nat.mul_zero, Nat.add_zero] at hkw
            exact absurd hkw (by omega)
          | succ k =>
            refine ⟨k, by omega,
              by rw [show round + 1 + k = round + (k + 1) by omega]; exact hkm,
              by omega,
              by rw [show round + 1 + k = round + (k + 1) by omega]; exact hme, ?_⟩
            intro j hj
            obtain ⟨hm2, hw2⟩ := hkj (j + 1) (by omega)
            exact ⟨by rw [show round + 1 + j = round + (j + 1) by omega]; exact hm2, by omega⟩

theorem visLoop_converged_of_missing (env : Nat → List String) (names : List String)
    (fuel : Nat) (hfuel : 62 ≤ fuel) (h : ∃ r, r ≤ 61 ∧ missingAt (env r) names = []) :
    visLoopAux env names 0 0 fuel = VisExit.converged := by
  obtain ⟨r, hr, hre⟩ := h
  have hex : ∃ n, missingAt (env n) names = [] := ⟨r, hre⟩
  rw [visLoopAux_converged_iff env names fuel 0 0]
  have hfind := Nat.find_min' hex hre
  refine ⟨Nat.find hex, by omega, by rw [Nat.zero_add]; exact Nat.find_spec hex, ?_⟩
  intro j hj
  refine ⟨by rw [Nat.zero_add]; exact Nat.find_min hex hj, ?_⟩
  simp only [Nat.zero_add]
  omega

theorem visLoop_timeout_of_missing (env : Nat → List String) (names : List String)
    (fuel : Nat) (hfuel : 62 ≤ fuel) (h : ∀ r, r ≤ 61 → missingAt (env r) names ≠ []) :
    visLoopAux env names 0 0 fuel = VisExit.timeout (missingAt (env 61) names) := by
  rw [visLoopAux_timeout_iff env names fuel 0 0 _]
  refine ⟨61, by omega, by rw [Nat.zero_add]; exact h 61 (le_refl 61), by omega,
    by rw [Nat.zero_add], ?_⟩
  intro j hj
  refine ⟨by rw [Nat.zero_add]; exact h j (by omega), ?_⟩
  simp only [Nat.zero_add]
  omega

theorem visibility_converged_iff (env : Nat → List String) (names : List String) :
    visibility_wait env names = VisExit.converged ↔
      ∃ r, r ≤ 61 ∧ missingAt (env r) names = [] := by
  constructor
  · intro h
    rw [show visibility_wait env names = visLoopAux env names 0 0 62 from rfl,
      visLoopAux_converged_iff env names 62 0 0] at h
    obtain ⟨k, hk, hke, -⟩ := h
    rw [Nat.zero_add] at hke
    exact ⟨k, by omega, hke⟩
  · intro h
    exact visLoop_converged_of_missing env names 62 (le_refl 62) h

theorem visibility_timeout_iff (env : Nat → List String) (names : List String) :
    ∀ m, visibility_wait env names = VisExit.timeout m ↔
      ((∀ r, r ≤ 61 → missingAt (env r) names ≠ []) ∧ m = missingAt (env 61) names) := by
  intro m
  constructor
  · intro h
    rw [show visibility_wait env names = visLoopAux env names 0 0 62 from rfl,
      visLoopAux_timeout_iff env names 62 0 0 m] at h
    obtain ⟨k, hk, hkm, hkw, hme, hkj⟩ := h
    simp only [Nat.zero_add] at hkm hkw hme hkj
    have hk61 : k = 61 := by omega
    subst hk61
    refine ⟨?_, hme⟩
    intro r hr
    rcases Nat.lt_or_ge r 61 with hlt | hge
    · exact (hkj r hlt).1
    · have hr61 : r = 61 := by omega
      rw [hr61]
      exact hkm
  · rintro ⟨hall, hme⟩
    rw [hme]
    exact visLoop_timeout_of_missing env names 62 (le_refl 62) hall

theorem visibility_not_fuelOut (env : Nat → List String) (names : List String) :
    visibility_wait env names ≠ VisExit.fuelOut := by
  intro h
  by_cases hd : ∃ r, r ≤ 61 ∧ missingAt (env r) names = []
  · have h2 := (visibility_converged_iff env names).mpr hd
    rw [h] at h2
    simp at h2
  · push_neg at hd
    have h2 := (visibility_timeout_iff env names (missingAt (env 61) names)).mpr ⟨hd, rfl⟩
    rw [h] at h2
    simp at h2

theorem visibility_fuel_stable (env : Nat → List String) (names : List String) :
    ∀ extra, visLoopAux env names 0 0 (62 + extra) = visibility_wait env names := by
  intro extra
  by_cases hd : ∃ r, r ≤ 61 ∧ missingAt (env r) names = []
  · rw [visLoop_converged_of_missing env names (62 + extra) (by omega) hd]
    exact (visLoop_converged_of_missing env names 62 (le_refl 62) hd).symm
  · push_neg at hd
    rw [visLoop_timeout_of_missing env names (62 + extra) (by omega) hd]
    exact (visLoop_timeout_of_missing env names 62 (le_refl 62) hd).symm

/-- C5: the visibility-convergence step polls the device list at a
10-second interval until every submitted name appears; when waited_rec
exceeds the 600-second ceiling — which happens at the 62nd poll, round
index 61 — the phase aborts reporting exactly the names still missing in
that last poll. The last conjunct shows the bounded model agrees with the
unbounded while loop: any fuel beyond 62 gives the same exit. -/
theorem c5_visibility_wait_spec :
    fmc_max_wait = 600 ∧ fmc_poll_interval = 10 ∧
    ∀ (env : Nat → List String) (names : List String),
      (visibility_wait env names = VisExit.converged ↔
        ∃ r, r ≤ 61 ∧ missingAt (env r) names = []) ∧
      (∀ m, visibility_wait env names = VisExit.timeout m ↔
        ((∀ r, r ≤ 61 → missingAt (env r) names ≠ []) ∧ m = missingAt (env 61) names)) ∧
      visibility_wait env names ≠ VisExit.fuelOut ∧
      (∀ extra, visLoopAux env names 0 0 (62 + extra) = visibility_wait env names) :=
  ⟨rfl, rfl, fun env names =>
    ⟨visibility_converged_iff env names, visibility_timeout_iff env names,
     visibility_not_fuelOut env names, visibility_fuel_stable env names⟩⟩

/-- C1 (code bug in the health-convergence loop, processing_fmc.py lines
209-240): the claim says the loop terminates with an explicit failure
report whenever a previously-visible device disappears from the device
list. The disappearance branch of the code (lines 229-232) tests the
missing_devices variable, which is never recomputed inside the health
loop: it still holds the empty set that made the visibility loop exit, so
the branch is dead and the loop can never exit through it — proved here for
every environment. The second conjunct evaluates the failing input: two
devices pass the visibility wait, FTD-B then disappears from every health
round, and the loop just keeps polling (still running after its fuel)
instead of reporting the disappearance. -/
theorem c1_disappearance_branch_dead :
    (∀ (visEnv : Nat → List String) (healthEnv : Nat → List DevObs) (names : List String)
        (fuel : Nat) (m : List String),
      register_converge visEnv healthEnv names fuel ≠
        RegResult.health (HealthExit.disappeared m)) ∧
    register_converge visEnvAB healthEnvDrop namesAB 5 =
      RegResult.health (HealthExit.running ["FTD-A"]) := by
  constructor
  · intro visEnv healthEnv names fuel m
    have hnil : ∀ f r ready,
        healthLoopAux healthEnv names [] ready r f ≠ HealthExit.disappeared m := by
      intro f
      induction f with
      | zero => intro r ready; simp [healthLoopAux]
      | succ f ih =>
        intro r ready
        rw [show healthLoopAux healthEnv names [] ready r (f + 1) =
            (if (roundReady names ready (healthEnv r)).length = names.length then
              HealthExit.allReady (roundReady names ready (healthEnv r))
            else healthLoopAux healthEnv names [] (roundReady names ready (healthEnv r))
              (r + 1) f) from by simp [healthLoopAux]]
        by_cases hl : (roundReady names ready (healthEnv r)).length = names.length
        · rw [if_pos hl]; simp
        · rw [if_neg hl]; exact ih (r + 1) _
    rcases hvis : visibility_wait visEnv names with _ | m2 | _ <;>
      simp [register_converge, hvis]
    exact hnil fuel 0 []
  · rfl

theorem haStatusLoop_first_hit (env : Nat → HaObs) (e : HaExit) (he : e ≠ HaExit.running) :
    ∀ fuel wait round,
      (haStatusLoop env wait round fuel = e ↔
        ∃ k, k < fuel ∧ haClassify (env (round + k)) (wait + 10 * k) = some e ∧
          ∀ j, j < k → haClassify (env (round + j)) (wait + 10 * j) = none) := by
  intro fuel
  induction fuel with
  | zero =>
    intro wait round
    constructor
    · intro h
      rw [show haStatusLoop env wait round 0 = HaExit.running from rfl] at h
      exact absurd h.symm he
    · rintro ⟨k, hk, -, -⟩
      exact absurd hk (by omega)
  | succ fuel ih =>
    intro wait round
    cases hc : haClassify (env round) wait with
    | some e2 =>
      rw [show haStatusLoop env wait round (fuel + 1) = e2 from by simp [haStatusLoop, hc]]
      constructor
      · intro h
        subst h
        refine ⟨0, Nat.succ_pos _, ?_, ?_⟩
        · rw [Nat.add_zero, Nat.mul_zero, Nat.add_zero]; exact hc
        · intro j hj; exact absurd hj (by omega)
      · rintro ⟨k, hk, hke, hkj⟩
        cases k with
        | zero =>
          rw [Nat.add_zero, Nat.mul_zero, Nat.add_zero] at hke
          rw [hc] at hke
          exact Option.some_inj.mp hke
        | succ k =>
          have h0 := hkj 0 (by omega)
          rw [Nat.add_zero, Nat.mul_zero, Nat.add_zero] at h0
          rw [hc] at h0
          simp at h0
    | none =>
      rw [show haStatusLoop env wait round (fuel + 1) =
          haStatusLoop env (wait + ha_poll_interval) (round + 1) fuel from by
          simp [haStatusLoop, hc]]
      rw [ih (wait + ha_poll_interval) (round + 1)]
      have h10 : ha_poll_interval = 10 := rfl
      rw [h10]
      constructor
      · rintro ⟨k, hk, hke, hkj⟩
        refine ⟨k + 1, by omega,
          by rw [show round + (k + 1) = round + 1 + k by omega,
               show wait + 10 * (k + 1) = wait + 10 + 10 * k by omega]; exact hke, ?_⟩
        intro j hj
        cases j with
        | zero => rw [Nat.add_zero, Nat.mul_zero, Nat.add_zero]; exact hc
        | succ j =>
          have hji := hkj j (by omega)
          rw [show round + 1 + j = round + (j + 1) by omega,
             show wait + 10 + 10 * j = wait + 10 * (j + 1) by omega] at hji
          exact hji
      · rintro ⟨k, hk, hke, hkj⟩
        cases k with
        | zero =>
          rw [Nat.add_zero, Nat.mul_zero, Nat.add_zero] at hke
          rw [hc] at hke
          simp at hke
        | succ k =>
          refine ⟨k, by omega,
            by rw [show round + 1 + k = round + (k + 1) by omega,
                 show wait + 10 + 10 * k = wait + 10 * (k + 1) by omega]; exact hke, ?_⟩
          intro j hj
          have hji := hkj (j + 1) (by omega)
          rw [show round + (j + 1) = round + 1 + j by omega,
             show wait + 10 * (j + 1) = wait + 10 + 10 * j by omega] at hji
          exact hji

theorem haClassify_success_iff (o : HaObs) (w : Nat) :
    haClassify o w = some HaExit.success ↔
      (o.primary = "active" ∧ o.secondary = "standby") := by
  unfold haClassify
  split_ifs with h1 h2 h3 <;> simp_all

theorem haClassify_failed_iff (o : HaObs) (w : Nat) :
    haClassify o w = some HaExit.failed ↔
      (¬(o.primary = "active" ∧ o.secondary = "standby") ∧
       (o.primary = "failed" ∨ o.secondary = "failed")) := by
  unfold haClassify
  split_ifs with h1 h2 h3 <;> simp_all

theorem haClassify_ceiling_iff (o : HaObs) (w : Nat) :
    haClassify o w = some HaExit.ceilingWarn ↔
      (¬(o.primary = "active" ∧ o.secondary = "standby") ∧
       ¬(o.primary = "failed" ∨ o.secondary = "failed") ∧ w > max_ha_wait) := by
  unfold haClassify
  split_ifs with h1 h2 h3 <;> simp_all

/-- C7: the HA-pair convergence loop exits with success exactly when the
first deciding poll observes primary "active" and secondary "standby";
it exits as a terminal failure when the first deciding poll observes a
"failed" status (and the pair is not active/standby); and when the
accumulated wait exceeds the 1800-second ceiling with neither condition it
exits the loop normally (ceilingWarn, a plain break that raises nothing),
leaving the pair in a non-terminal state. -/
theorem c7_ha_convergence_spec :
    max_ha_wait = 1800 ∧ ha_poll_interval = 10 ∧
    (∀ (o : HaObs) (w : Nat),
      (haClassify o w = some HaExit.success ↔
        (o.primary = "active" ∧ o.secondary = "standby")) ∧
      (haClassify o w = some HaExit.failed ↔
        (¬(o.primary = "active" ∧ o.secondary = "standby") ∧
         (o.primary = "failed" ∨ o.secondary = "failed"))) ∧
      (haClassify o w = some HaExit.ceilingWarn ↔
        (¬(o.primary = "active" ∧ o.secondary = "standby") ∧
         ¬(o.primary = "failed" ∨ o.secondary = "failed") ∧ w > max_ha_wait))) ∧
    (∀ (env : Nat → HaObs) (wait fuel : Nat),
      (haStatusLoop env wait 0 fuel = HaExit.success ↔
        ∃ k, k < fuel ∧ haClassify (env k) (wait + 10 * k) = some HaExit.success ∧
          ∀ j, j < k → haClassify (env j) (wait + 10 * j) = none) ∧
      (haStatusLoop env wait 0 fuel = HaExit.failed ↔
        ∃ k, k < fuel ∧ haClassify (env k) (wait + 10 * k) = some HaExit.failed ∧
          ∀ j, j < k → haClassify (env j) (wait + 10 * j) = none) ∧
      (haStatusLoop env wait 0 fuel = HaExit.ceilingWarn ↔
        ∃ k, k < fuel ∧ haClassify (env k) (wait + 10 * k) = some HaExit.ceilingWarn ∧
          ∀ j, j < k → haClassify (env j) (wait + 10 * j) = none)) := by
  refine ⟨rfl, rfl, ?_, ?_⟩
  · intro o w
    exact ⟨haClassify_success_iff o w, haClassify_failed_iff o w, haClassify_ceiling_iff o w⟩
  · intro env wait fuel
    refine ⟨?_, ?_, ?_⟩
    · rw [haStatusLoop_first_hit env HaExit.success (by simp) fuel wait 0]
      simp only [Nat.zero_add]
    · rw [haStatusLoop_first_hit env HaExit.failed (by simp) fuel wait 0]
      simp only [Nat.zero_add]
    · rw [haStatusLoop_first_hit env HaExit.ceilingWarn (by simp) fuel wait 0]
      simp only [Nat.zero_add]

theorem createZones_all_ok :
    ∀ resps : List ZoneResp, (∀ r ∈ resps, httpOk r.status = true) →
      createZones resps = resps.map ZoneResp.id := by
  intro resps
  induction resps with
  | nil => intro _; rfl
  | cons r rs ih =>
    intro hok
    rw [show createZones (r :: rs) =
        (if httpOk r.status then r.id :: createZones rs else []) from rfl]
    rw [if_pos (hok r (by simp))]
    rw [ih (fun x hx => hok x (by simp [hx]))]
    rfl

/-- C6: for every zone-creation order and every interface-configuration
entry with zone_index = k, the securityZone.id of the interface PUT payload is
the identifier created for the k-th zone in that order, and (given the
created identifiers are pairwise distinct) never the identifier of any
other zone. -/
theorem c6_interface_zone_binding :
    ∀ (resps : List ZoneResp) (config : IntConfig),
      (∀ r ∈ resps, httpOk r.status = true) →
      ∀ h : config.zone_index < resps.length,
        ∃ p, configure_interface config (createZones resps) = some p ∧
          p.securityZoneId = (resps.get ⟨config.zone_index, h⟩).id ∧
          ((resps.map ZoneResp.id).Nodup →
            ∀ j, ∀ hj : j < resps.length, j ≠ config.zone_index →
              p.securityZoneId ≠ (resps.get ⟨j, hj⟩).id) := by
  intro resps config hok h
  have hget : (createZones resps)[config.zone_index]? =
      some (resps.get ⟨config.zone_index, h⟩).id := by
    rw [createZones_all_ok resps hok]
    rw [List.getElem?_map, List.getElem?_eq_getElem h]
    rfl
  refine ⟨⟨(resps.get ⟨config.zone_index, h⟩).id, "SecurityZone", config.ifname, true,
    config.ip_address, config.netmask⟩, ?_, rfl, ?_⟩
  · simp [configure_interface, hget]
  · intro hnodup j hj hne heq
    have hlen1 : config.zone_index < (resps.map ZoneResp.id).length := by simpa using h
    have hlen2 : j < (resps.map ZoneResp.id).length := by simpa using hj
    have hmap : (resps.map ZoneResp.id)[config.zone_index] = (resps.map ZoneResp.id)[j] := by
      rw [List.getElem_map, List.getElem_map]
      simpa [List.get_eq_getElem] using heq
    have hij := (List.Nodup.getElem_inj_iff hnodup).mp hmap
    exact hne hij.symm

/-- Witness for C6: with created zones Z0, Z1, Z2 carrying ids 11, 22, 33
and an interface entry with zone_index 1, the PUT payload binds id 22. -/
theorem c6_witness :
    ∃ p, configure_interface intConfigC6 (createZones zoneRespsC6) = some p ∧
      p.securityZoneId = 22 := by
  obtain ⟨p, h1, h2, -⟩ :=
    c6_interface_zone_binding zoneRespsC6 intConfigC6 (by decide) (by decide)
  exact ⟨p, h1, h2.trans (by decide)⟩

/-- C8, counterexample: the claim says teardown always attempts a console
disconnect and removes the screen-capture artifacts regardless of where
the sequence stopped; but when a step raises, the code jumps past the
disconnect/cleanup block (which sits inside the try, after the last step)
and the outer finally only touches the always-None telnet handle — so a
run that raises at the first step attempts neither. -/
theorem c8_counterexample :
    ¬ (∀ env : Nat → StepResult,
        (telnet_conn_run env "FTD Firewall").disconnectAttempted = true ∧
        (telnet_conn_run env "FTD Firewall").artifactsRemoved = true) := by
  intro h
  have h2 := (h envRaiseAll).1
  exact absurd h2 (by decide)

/-- C8, amended: teardown (the VNC disconnect attempt and the removal of
the two screen-capture artifacts, the latter only for node_type
"FTD Firewall") runs exactly when every step of the sequence completed;
when any step raises, the outer except reports the error and no disconnect
or artifact removal is attempted; the telnet handle is never closed since
it is always None. -/
theorem c8_teardown_only_on_completion :
    ∀ (env : Nat → StepResult) (nt : String),
      (telnet_conn_run env nt).disconnectAttempted = (firstFailureAux env 0 numSteps).isNone ∧
      (telnet_conn_run env nt).artifactsRemoved =
        ((firstFailureAux env 0 numSteps).isNone && (nt == "FTD Firewall")) ∧
      (telnet_conn_run env nt).errorReported = !(firstFailureAux env 0 numSteps).isNone ∧
      (telnet_conn_run env nt).telnetClosed = false := by
  intro env nt
  cases hf : firstFailureAux env 0 numSteps <;> simp [telnet_conn_run, hf]

/-- C9, counterexample: the claim says every state transition is taken only
after a positive text-match against a processed screen capture; but the
sequence contains transitions with no guard at all (the IPv6 decline of
line 531 and the free-form command application of lines 534-541). -/
theorem c9_counterexample : ¬ (∀ s ∈ telnetSteps, s.guard.isSome = true) := by decide

/-- C9, amended: every transition of the interactive configuration
sequence except the IPv6 decline (index 7) and the free-form command
application (index 8) is gated on a positive text-match against a
processed screen capture; those two are sent on fixed delays alone. -/
theorem c9_guards_except_ipv6_and_commands :
    (∀ i, ∀ h : i < telnetSteps.length, i ≠ 7 → i ≠ 8 →
      ((telnetSteps.get ⟨i, h⟩).guard).isSome = true) ∧
    (telnetSteps.get ⟨7, by decide⟩).guard = none ∧
    (telnetSteps.get ⟨8, by decide⟩).guard = none := by
  refine ⟨?_, by decide, by decide⟩
  decide

/-- Witness for C9: the first transition (the login prompt) is guarded. -/
theorem c9_witness : ((telnetSteps.get ⟨0, by decide⟩).guard).isSome = true :=
  c9_guards_except_ipv6_and_commands.1 0 (by decide) (by decide) (by decide)

end EveFtd
